import Mathlib

/-!
Verification of the SpacePyTraders client library against its design spec.

The development shallowly embeds the two request pipelines
(`SpacePyTradersV2/client.py` and `SpacePyTraders/client.py`,
function `Client.generic_api_call`), the transport dispatcher
(`make_request`), and the reflection-based marshaller of
`SpacePyTraders/models.py` (`parser`, `unpack`, `to_snake`,
`to_camel_case`, `to_lower_camel_case`, and the declared dataclass
schema).

Python values are modelled by the mutually inductive family
`PyVal`/`PyItems`/`PyKVs`; Python dicts are association lists read with
last-binding-wins lookup, matching dict assignment semantics.  Python
exceptions are modelled by `PyExc`; a function that can raise returns
`Except PyExc _`.  Machine integers do not occur (Python ints are
unbounded), so `Int` is used directly.
-/

/-- Python exception classes that the embedded code can raise or return. -/
inductive PyExc where
  | typeError
  | keyError
  | attributeError
  | decodeError
  | connectionError
  deriving DecidableEq, Repr

mutual

/-- An untyped Python value: JSON scalars, lists, dicts, and dataclass
instances (`vinst cls flds` is an instance of model class `cls` whose
`__dict__` is `flds`). -/
inductive PyVal where
  | vstr (s : String)
  | vint (n : Int)
  | vbool (b : Bool)
  | vnone
  | vlist (xs : PyItems)
  | vdict (kvs : PyKVs)
  | vinst (cls : String) (flds : PyKVs)

/-- A list of Python values. -/
inductive PyItems where
  | nil
  | cons (v : PyVal) (tl : PyItems)

/-- An ordered association list of string-keyed Python values (a dict). -/
inductive PyKVs where
  | nil
  | cons (k : String) (v : PyVal) (tl : PyKVs)

end

deriving instance DecidableEq for PyVal
deriving instance DecidableEq for PyItems
deriving instance DecidableEq for PyKVs
deriving instance DecidableEq for Except

/-- Last-binding-wins lookup in an association list: the value the Python
dict would hold at key `k` after all assignments were made in order. -/
def lookupLast : PyKVs → String → Option PyVal
  | .nil, _ => none
  | .cons k v tl, n =>
      match lookupLast tl n with
      | some w => some w
      | none => if k = n then some v else none

/-- Key membership in an association list (Python `k in d`). -/
def hasKey : PyKVs → String → Bool
  | .nil, _ => false
  | .cons k _ tl, n => k = n || hasKey tl n

/-- The keys of an association list, in order. -/
def namesOf : PyKVs → List String
  | .nil => []
  | .cons k _ tl => k :: namesOf tl

/-- Length of a `PyItems` list. -/
def itemsLen : PyItems → Nat
  | .nil => 0
  | .cons _ tl => itemsLen tl + 1

/-- Does a `PyItems` list contain the string `s` as an element
(Python `s in somelist`)? -/
def itemsHasStr : PyItems → String → Bool
  | .nil, _ => false
  | .cons v tl, s =>
      (match v with
       | .vstr t => t = s
       | _ => false) || itemsHasStr tl s

/-- List-of-characters prefix test, used for the substring test below. -/
def startsWithChars : List Char → List Char → Bool
  | [], _ => true
  | _ :: _, [] => false
  | x :: xs, y :: ys => x = y && startsWithChars xs ys

/-- Substring test on character lists (Python `needle in haystack` on
strings). -/
def hasSubChars (needle : List Char) : List Char → Bool
  | [] => needle.isEmpty
  | y :: ys => startsWithChars needle (y :: ys) || hasSubChars needle ys

/-! ## Case transforms (`models.py`, lines 437-449)

`to_snake` embeds `re.sub(r'(?<!^)(?=[A-Z])', '_', name).lower()`: an
underscore is inserted before every uppercase ASCII letter that is not
at the start of the string, then the whole string is lowercased.
`to_camel_case` and `to_lower_camel_case` embed the two functions of the
same names, with Python `str.split("_")` and `str.capitalize`
semantics. -/

/-- Insert an underscore before each uppercase letter (applied to all
characters after the first). -/
def snakeTail : List Char → List Char
  | [] => []
  | c :: cs => (if c.isUpper then ['_', c] else [c]) ++ snakeTail cs

/-- The `to_snake` function of `models.py`. -/
def to_snake (name : String) : String :=
  match name.toList with
  | [] => ""
  | c :: cs => String.mk ((c :: snakeTail cs).map Char.toLower)

/-- Python `str.split("_")` on character lists, keeping empty segments. -/
def splitUnderscore : List Char → List (List Char)
  | [] => [[]]
  | c :: cs =>
      if c = '_' then [] :: splitUnderscore cs
      else
        match splitUnderscore cs with
        | [] => [[c]]
        | g :: gs => (c :: g) :: gs

/-- Python `str.capitalize`: first character uppercased, the rest
lowercased. -/
def pyCapitalize : List Char → List Char
  | [] => []
  | c :: cs => c.toUpper :: cs.map Char.toLower

/-- The `to_camel_case` function of `models.py`:
`"".join(x.capitalize() for x in snake_str.lower().split("_"))`. -/
def to_camel_case (snake_str : String) : String :=
  String.mk (((splitUnderscore (snake_str.toList.map Char.toLower)).map pyCapitalize).flatten)

/-- The `to_lower_camel_case` function of `models.py`:
`snake_str[0].lower() + to_camel_case(snake_str)[1:]`.  On the empty
string the Python original raises `IndexError`; it is only ever applied
to nonempty attribute names, and the embedding returns `""` there. -/
def to_lower_camel_case (snake_str : String) : String :=
  match snake_str.toList with
  | [] => ""
  | c :: _ => String.mk (c.toLower :: (to_camel_case snake_str).toList.drop 1)

example : to_snake "tradeSymbol" = "trade_symbol" := by decide
example : to_snake "accountId" = "account_id" := by decide
example : to_lower_camel_case "account_id" = "accountId" := by decide
example : to_lower_camel_case "tradeSymbol" = "tradesymbol" := by decide
example : to_camel_case "ship_symbol" = "ShipSymbol" := by decide

/-! ## The request pipeline (`client.py`)

`Client.generic_api_call` of `SpacePyTradersV2/client.py` (lines
87-155) and of `SpacePyTraders/client.py` (lines 86-152) are embedded
below.  A network attempt is modelled by `NetAttempt`: either the
transport raised an exception, or it produced an HTTP response whose
`json()` method either raises a decode error or yields a `PyVal`.  The
pipeline consumes one `NetAttempt` per loop iteration; the sequence of
attempts a run would observe is given as a function `Nat → NetAttempt`.
Sleeping (`time.sleep(throttle_time)`) is recorded by accumulating the
slept seconds in `RunStats.sleepSeconds`. -/

/-- Python `"error" in j` for a decoded JSON value `j` (membership for a
dict, element membership for a list, substring test for a string,
`TypeError` for non-containers). -/
def pyContains (j : PyVal) (key : String) : Except PyExc Bool :=
  match j with
  | .vdict kvs => .ok (hasKey kvs key)
  | .vlist xs => .ok (itemsHasStr xs key)
  | .vstr s => .ok (hasSubChars key.toList s.toList)
  | _ => .error .typeError

/-- Python `j[key]` for a string key: dict lookup (`KeyError` when the
key is absent), `TypeError` on anything that is not a dict. -/
def pySubscript (j : PyVal) (key : String) : Except PyExc PyVal :=
  match j with
  | .vdict kvs =>
      match lookupLast kvs key with
      | some v => .ok v
      | none => .error .keyError
  | _ => .error .typeError

/-- Python truthiness of a `PyVal`. -/
def pyValTruthy : PyVal → Bool
  | .vstr s => s ≠ ""
  | .vint n => n ≠ 0
  | .vbool b => b
  | .vnone => false
  | .vlist xs => xs ≠ .nil
  | .vdict kvs => kvs ≠ .nil
  | .vinst _ _ => true

/-- An HTTP response as the pipeline observes it: the numeric status
code, and the result of calling `r.json()` (which either raises a
decode exception or yields the decoded body). -/
structure HttpResponse where
  statusCode : Nat
  body : Except PyExc PyVal
  deriving DecidableEq

/-- One network attempt: `make_request` either raised (connection-level
failure) or returned a response. -/
inductive NetAttempt where
  | raised (e : PyExc)
  | resp (r : HttpResponse)
  deriving DecidableEq

/-- Which retryable exception the loop body raised for this attempt:
`ThrottleException` (error code 42901) or `ServerException`
(error code 500 or 409). -/
inductive RetryClass where
  | throttle
  | serverTransient
  deriving DecidableEq, Repr

/-- The value `generic_api_call` hands back on a terminal attempt:
Python `None` (status 204), the raw response (`raw_res=True`), the
decoded JSON body, the failure sentinel `False` (unknown API error), or
a caught exception returned as a value. -/
inductive ApiReturn where
  | noContent
  | rawResponse (r : HttpResponse)
  | jsonValue (v : PyVal)
  | failureSentinel
  | excValue (e : PyExc)
  deriving DecidableEq

/-- Outcome of one iteration of the retry loop: a terminal return, or a
caught `ThrottleException`/`ServerException` followed by
`time.sleep(throttle_time)` and `continue`. -/
inductive AttemptOutcome where
  | done (r : ApiReturn)
  | retry (c : RetryClass)
  deriving DecidableEq

/-- The part of the loop body shared verbatim by both clients: decode
the body, look for an `error` envelope, classify its `code`, and
otherwise return the JSON (or raw) response.  Any exception other than
the two retry signals is caught by `except Exception as e: return e`,
which the `.done (.excValue e)` results model. -/
def classifyBody (rawRes : Bool) (r : HttpResponse) : AttemptOutcome :=
  match r.body with
  | .error e => .done (.excValue e)
  | .ok j =>
      match pyContains j "error" with
      | .error e => .done (.excValue e)
      | .ok false => .done (if rawRes then .rawResponse r else .jsonValue j)
      | .ok true =>
          match pySubscript j "error" with
          | .error e => .done (.excValue e)
          | .ok errObj =>
              match pySubscript errObj "code" with
              | .error e => .done (.excValue e)
              | .ok code =>
                  match pySubscript errObj "message" with
                  | .error e => .done (.excValue e)
                  | .ok _ =>
                      if code = .vint 42901 then .retry .throttle
                      else if code = .vint 500 ∨ code = .vint 409 then
                        .retry .serverTransient
                      else .done .failureSentinel

/-- One loop iteration of the V2 pipeline applied to a response
(`SpacePyTradersV2/client.py`, lines 111-139): status 204 returns
`None` before `r.json()` is ever called; otherwise the shared body
classification runs. -/
def classifyResponse (rawRes : Bool) (r : HttpResponse) : AttemptOutcome :=
  if r.statusCode = 204 then .done .noContent
  else classifyBody rawRes r

/-- One loop iteration of the V1 pipeline applied to a response
(`SpacePyTraders/client.py`, lines 110-136): identical to the V2 body
except that there is no status-204 check. -/
def classifyResponseV1 (rawRes : Bool) (r : HttpResponse) : AttemptOutcome :=
  classifyBody rawRes r

/-- One loop iteration of the V2 pipeline on a network attempt: an
exception raised by the transport is caught and returned as a value. -/
def classifyAttempt (rawRes : Bool) : NetAttempt → AttemptOutcome
  | .raised e => .done (.excValue e)
  | .resp r => classifyResponse rawRes r

/-- One loop iteration of the V1 pipeline on a network attempt. -/
def classifyAttemptV1 (rawRes : Bool) : NetAttempt → AttemptOutcome
  | .raised e => .done (.excValue e)
  | .resp r => classifyResponseV1 rawRes r

/-- What a finished pipeline run did: how it ended, how many network
attempts it performed, and how many seconds it spent in retry sleeps. -/
structure RunStats where
  result : Except Unit ApiReturn
  attempts : Nat
  sleepSeconds : Nat
  deriving DecidableEq

/-- The pipeline ended by raising `TooManyTriesException`. -/
def tooManyTries : Except Unit ApiReturn := .error ()

/-- The retry loop `for i in range(10)` with `fuel` iterations left,
about to perform attempt number `i`.  A terminal outcome returns after
one attempt; a retry outcome sleeps `throttleTime` seconds and
continues; exhausted fuel raises `TooManyTriesException`. -/
def apiLoop (step : NetAttempt → AttemptOutcome) (throttleTime : Nat)
    (net : Nat → NetAttempt) : Nat → Nat → RunStats
  | _, 0 => ⟨tooManyTries, 0, 0⟩
  | i, fuel + 1 =>
      match step (net i) with
      | .done r => ⟨.ok r, 1, 0⟩
      | .retry _ =>
          let rest := apiLoop step throttleTime net (i + 1) fuel
          ⟨rest.result, rest.attempts + 1, rest.sleepSeconds + throttleTime⟩

/-- The header construction at the top of `generic_api_call`:
`'Bearer ' + token` raises `TypeError` when `token` is `None` (its
default), before the loop and before any call to the rate-limited
`make_request`. -/
def buildHeaders : Option String → Except PyExc (List (String × String))
  | none => .error .typeError
  | some t =>
      .ok [("Authorization", "Bearer " ++ t), ("Accept", "application/json"),
           ("Content-Type", "application/json")]

/-- `Client.generic_api_call` of `SpacePyTradersV2/client.py`: build the
headers (raising `TypeError` past the caller when `token` is `None`),
then run the ten-iteration retry loop over the attempt sequence
`net`. -/
def generic_api_call (token : Option String) (rawRes : Bool)
    (throttleTime : Nat) (net : Nat → NetAttempt) : Except PyExc RunStats :=
  match buildHeaders token with
  | .error e => .error e
  | .ok _ => .ok (apiLoop (classifyAttempt rawRes) throttleTime net 0 10)

/-- `Client.generic_api_call` of `SpacePyTraders/client.py`: identical
except for the per-response classification (no status-204 check). -/
def generic_api_call_v1 (token : Option String) (rawRes : Bool)
    (throttleTime : Nat) (net : Nat → NetAttempt) : Except PyExc RunStats :=
  match buildHeaders token with
  | .error e => .error e
  | .ok _ => .ok (apiLoop (classifyAttemptV1 rawRes) throttleTime net 0 10)

/-! ## The transport dispatcher (`make_request`) -/

/-- How `make_request` encodes the parameter bag for a given verb. -/
inductive ParamEncoding where
  | query
  | jsonBody
  | formData
  deriving DecidableEq, Repr

/-- What `make_request` does with a verb: send one request with the
given encoding, or (for an unhandled verb) log an invalid-method error
and return `None` without sending anything. -/
inductive TransportAction where
  | send (enc : ParamEncoding)
  | invalidNotSent
  deriving DecidableEq, Repr

/-- `make_request` of `SpacePyTradersV2/client.py` (lines 37-68):
GET uses `params=` (query string), POST and PATCH use `json=`
(JSON body), PUT and DELETE use `data=` (form-encoded body); any other
verb falls through every branch, is logged as an invalid method, and
no request is sent. -/
def make_request (method : String) : TransportAction :=
  if method = "GET" then .send .query
  else if method = "POST" then .send .jsonBody
  else if method = "PUT" then .send .formData
  else if method = "DELETE" then .send .formData
  else if method = "PATCH" then .send .jsonBody
  else .invalidNotSent

/-- `make_request` of `SpacePyTraders/client.py` (lines 36-66): the
same dispatcher without a PATCH branch, so `"PATCH"` reaches the
invalid-method fallthrough and is not sent. -/
def make_request_v1 (method : String) : TransportAction :=
  if method = "GET" then .send .query
  else if method = "POST" then .send .jsonBody
  else if method = "PUT" then .send .formData
  else if method = "DELETE" then .send .formData
  else .invalidNotSent

/-! ## The declared record schema (`models.py`, lines 5-383)

Each `@dataclass` of `models.py` is recorded as an ordered list of
field declarations.  A field's kind mirrors how `parser` classifies the
field's annotation: `listRec t` when the annotation is `list[T]` for a
registered model class `T` (a key of `list_dict`), `rec t` when it is a
registered model class itself (a value of `class_dict`), and `prim`
otherwise (plain types such as `str`/`int`/`bool`, and also `list[str]`
annotations, which are registered nowhere and therefore pass through
untouched).  `optional` is true exactly when the source declares a
`= None` default. -/

/-- The marshalling kind of a declared field. -/
inductive FieldType where
  | prim
  | record (t : String)
  | listRec (t : String)
  deriving DecidableEq, Repr

/-- One declared dataclass field: its (source-declared) name, its
marshalling kind, and whether it carries a `= None` default. -/
structure FieldDecl where
  fname : String
  ftype : FieldType
  optional : Bool
  deriving DecidableEq, Repr

/-- Shorthand for a required field. -/
def req (n : String) (t : FieldType) : FieldDecl := ⟨n, t, false⟩

/-- Shorthand for an optional (`= None`) field. -/
def opt (n : String) (t : FieldType) : FieldDecl := ⟨n, t, true⟩

/-- The ordered field list of each dataclass declared in `models.py`;
`[]` for any name that is not a declared model class. -/
def fieldsOf : String → List FieldDecl
  | "User" => [req "username" .prim, req "credits" .prim, req "ships" .prim]
  | "Agent" =>
      [req "account_id" .prim, req "symbol" .prim, req "headquarters" .prim,
       req "credits" .prim, req "starting_faction" .prim, req "ship_count" .prim]
  | "Chart" =>
      [req "submitted_by" .prim, req "submitted_on" .prim, opt "waypoint_symbol" .prim]
  | "ConstructionMaterial" =>
      [req "tradeSymbol" .prim, req "required" .prim, req "fulfilled" .prim]
  | "Construction" =>
      [req "symbol" .prim, req "materials" (.listRec "ConstructionMaterial"),
       req "isComplete" .prim]
  | "ContractDeliverGood" =>
      [req "trade_symbol" .prim, req "destination_symbol" .prim,
       req "units_required" .prim, req "units_fulfilled" .prim]
  | "ContractPayment" => [req "on_accepted" .prim, req "on_fulfilled" .prim]
  | "ContractTerms" =>
      [req "deadline" .prim, req "payment" (.record "ContractPayment"),
       req "deliver" (.record "ContractDeliverGood")]
  | "Contract" =>
      [req "id" .prim, req "faction_symbol" .prim, req "type" .prim,
       req "terms" (.listRec "ContractTerms"), req "accepted" .prim,
       req "fulfilled" .prim, req "expiration" .prim, req "deadline_to_accept" .prim]
  | "Cooldown" =>
      [req "ship_symbol" .prim, req "total_seconds" .prim,
       req "remaining_seconds" .prim, opt "expiration" .prim]
  | "ExtractionYield" => [req "symbol" .prim, req "units" .prim]
  | "FactionSymbol" => [req "symbol" .prim]
  | "FactionTrait" =>
      [req "symbol" .prim, req "name" .prim, req "description" .prim]
  | "Faction" =>
      [req "symbol" .prim, req "name" .prim, req "description" .prim,
       req "headquarters" .prim, req "traits" (.listRec "FactionTrait"),
       req "is_recruiting" .prim]
  | "JumpGate" => [req "symbol" .prim, req "connections" .prim]
  | "TradeGood" =>
      [req "symbol" .prim, req "name" .prim, req "description" .prim]
  | "MarketTradeGood" =>
      [req "symbol" .prim, req "type" .prim, req "trade_volume" .prim,
       req "supply" .prim, req "activity" .prim, req "purchase_price" .prim,
       req "sell_price" .prim]
  | "MarketTransaction" =>
      [req "waypoint_symbol" .prim, req "ship_symbol" .prim,
       req "trade_symbol" .prim, req "type" .prim, req "units" .prim,
       req "price_per_unit" .prim, req "total_price" .prim, req "timestamp" .prim]
  | "Market" =>
      [req "symbol" .prim, req "exports" (.listRec "TradeGood"),
       req "imports" (.listRec "TradeGood"), req "exchange" (.listRec "TradeGood"),
       opt "transactions" (.listRec "MarketTransaction"),
       opt "trade_goods" (.listRec "MarketTradeGood")]
  | "WaypointModifier" =>
      [req "symbol" .prim, req "name" .prim, req "description" .prim]
  | "WaypointTrait" =>
      [req "symbol" .prim, req "name" .prim, req "description" .prim]
  | "Waypoint" =>
      [req "symbol" .prim, req "type" .prim, req "x" .prim, req "y" .prim,
       req "orbitals" .prim, req "faction" (.record "FactionSymbol"),
       req "traits" (.listRec "WaypointTrait"),
       req "modifiers" (.listRec "WaypointModifier"), req "chart" (.record "Chart"),
       req "is_under_construction" .prim, opt "orbits" .prim]
  | "Meta" => [req "total" .prim, req "page" .prim, req "limit" .prim]
  | "ShipCargoItem" =>
      [req "symbol" .prim, req "name" .prim, req "description" .prim,
       req "units" .prim]
  | "ShipCargo" =>
      [req "capacity" .prim, req "units" .prim,
       req "inventory" (.listRec "ShipCargoItem")]
  | "ShipCrew" =>
      [req "current" .prim, req "required" .prim, req "capacity" .prim,
       req "rotation" .prim, req "morale" .prim, req "wages" .prim]
  | "ShipRequirements" => [req "crew" .prim, opt "power" .prim, opt "slots" .prim]
  | "ShipEngine" =>
      [req "symbol" .prim, req "name" .prim, req "description" .prim,
       req "condition" .prim, req "speed" .prim,
       req "requirements" (.record "ShipRequirements")]
  | "ShipFrame" =>
      [req "symbol" .prim, req "name" .prim, req "description" .prim,
       req "condition" .prim, req "module_slots" .prim,
       req "mounting_points" .prim, req "fuel_capacity" .prim,
       req "requirements" (.record "ShipRequirements")]
  | "ShipFuelConsumed" => [req "amount" .prim, req "timestamp" .prim]
  | "ShipFuel" =>
      [req "current" .prim, req "capacity" .prim,
       req "consumed" (.record "ShipFuelConsumed")]
  | "ShipModule" =>
      [req "symbol" .prim, req "name" .prim, req "description" .prim,
       req "requirements" (.record "ShipRequirements"), opt "capacity" .prim,
       opt "range" .prim]
  | "ShipMount" =>
      [req "symbol" .prim, req "name" .prim, req "description" .prim,
       req "strength" .prim, req "requirements" (.record "ShipRequirements"),
       opt "deposits" .prim]
  | "ShipNavRouteWaypoint" =>
      [req "symbol" .prim, req "type" .prim, req "system_symbol" .prim,
       req "x" .prim, req "y" .prim]
  | "ShipNavRoute" =>
      [req "destination" (.record "ShipNavRouteWaypoint"),
       req "origin" (.record "ShipNavRouteWaypoint"), req "departure_time" .prim,
       req "arrival" .prim]
  | "ShipNav" =>
      [req "system_symbol" .prim, req "waypoint_symbol" .prim,
       req "route" (.record "ShipNavRoute"), req "status" .prim,
       req "flight_mode" .prim]
  | "ShipReactor" =>
      [req "symbol" .prim, req "name" .prim, req "description" .prim,
       req "condition" .prim, req "power_output" .prim,
       req "requirements" (.record "ShipRequirements")]
  | "ShipRegistration" =>
      [req "name" .prim, req "faction_symbol" .prim, req "role" .prim]
  | "Ship" =>
      [req "symbol" .prim, req "registration" (.record "ShipRegistration"),
       req "nav" (.record "ShipNav"), req "frame" (.record "ShipFrame"),
       req "reactor" (.record "ShipReactor"), req "engine" (.record "ShipEngine"),
       req "mounts" (.listRec "ShipMount"), opt "crew" (.record "ShipCrew"),
       opt "cooldown" (.record "Cooldown"), opt "modules" (.listRec "ShipModule"),
       opt "cargo" (.record "ShipCargo"), opt "fuel" (.record "ShipFuel")]
  | "SurveyDeposit" => [req "symbol" .prim]
  | "Survey" =>
      [req "signature" .prim, req "symbol" .prim,
       req "deposits" (.listRec "SurveyDeposit"), req "expiration" .prim,
       req "size" .prim]
  | "SystemWaypoint" =>
      [req "symbol" .prim, req "type" .prim, req "x" .prim, req "y" .prim,
       req "orbitals" .prim, opt "orbits" .prim]
  | "System" =>
      [req "symbol" .prim, req "sector_symbol" .prim, req "type" .prim,
       req "x" .prim, req "y" .prim, req "waypoints" (.listRec "SystemWaypoint"),
       req "factions" (.listRec "FactionSymbol")]
  | _ => []

/-- The target of a `parser` call: a registered model class (a member
of `class_dict`) or `list[T]` for a registered class (a key of
`list_dict`). -/
inductive ModelTy where
  | cls (t : String)
  | listOf (t : String)
  deriving DecidableEq, Repr

/-- The first declared field whose name equals `n`, mirroring
`for i in fields(model): if i.name == to_snake(key): ... break`. -/
def findField : List FieldDecl → String → Option FieldDecl
  | [], _ => none
  | fd :: rest, n => if fd.fname = n then some fd else findField rest n

/-! ## The marshaller (`models.py`, `parser` lines 395-414 and `unpack`
lines 417-434)

`parser(data, model)` iterates the payload dict; each key whose
`to_snake` image names a declared field contributes
`class_info[field] = value` (recursively parsed when the field's
annotation is a registered class or `list[class]`), and
`model(**class_info)` then builds the instance: missing required fields
raise `TypeError`, missing optional fields default to `None`, and the
instance's `__dict__` holds every declared field in declaration order.
`class_info` is modelled as the association list of assignments in
payload order, read with last-binding-wins lookup (`lookupLast`), which
is Python dict-assignment semantics.

`unpack(k)` maps a list elementwise, and maps a dict or an instance
`__dict__` to a dict keyed by `to_lower_camel_case` of each attribute
name, recursing exactly into values that are lists or registered-class
instances; all other values pass through untouched.  Calling it on a
scalar is Python `k.__dict__` on a primitive, an `AttributeError`. -/

/-- The `model(**class_info)` step: walk the declared fields in order,
take the assigned value when one exists, fall back to the `None`
default for optional fields, and raise `TypeError` when a required
field has no assignment. -/
def constructFields (info : PyKVs) : List FieldDecl → Except PyExc PyKVs
  | [] => .ok .nil
  | fd :: rest =>
      match constructFields info rest with
      | .error e => .error e
      | .ok tl =>
          match lookupLast info fd.fname with
          | some v => .ok (.cons fd.fname v tl)
          | none => if fd.optional then .ok (.cons fd.fname .vnone tl) else .error .typeError

mutual

/-- The `parser` function of `models.py`.  For `list[T]` targets the
payload is iterated elementwise (a non-list payload raises: iterating a
nonempty dict yields string keys whose `.items()` call raises
`AttributeError`, a nonempty string likewise, and non-iterables raise
`TypeError`; empty iterables produce `[]`).  For class targets the
payload must be a dict (otherwise `data.items()` raises
`AttributeError`); matched keys are parsed into `class_info` and the
constructor runs. -/
def parser : PyVal → ModelTy → Except PyExc PyVal
  | data, .listOf t =>
      match data with
      | .vlist xs =>
          match parserItems xs t with
          | .error e => .error e
          | .ok ys => .ok (.vlist ys)
      | .vdict .nil => .ok (.vlist .nil)
      | .vdict (.cons _ _ _) => .error .attributeError
      | .vstr s => if s = "" then .ok (.vlist .nil) else .error .attributeError
      | _ => .error .typeError
  | data, .cls t =>
      match data with
      | .vdict kvs =>
          match buildInfo kvs (fieldsOf t) with
          | .error e => .error e
          | .ok info =>
              match constructFields info (fieldsOf t) with
              | .error e => .error e
              | .ok flds => .ok (.vinst t flds)
      | _ => .error .attributeError

/-- Elementwise `parser` over a payload list (`for i in data`). -/
def parserItems : PyItems → String → Except PyExc PyItems
  | .nil, _ => .ok .nil
  | .cons v tl, t =>
      match parser v (.cls t) with
      | .error e => .error e
      | .ok y =>
          match parserItems tl t with
          | .error e => .error e
          | .ok ys => .ok (.cons y ys)

/-- The `for key, value in data.items()` loop of `parser`: keys whose
snake image matches no declared field are dropped; matched keys are
parsed according to the field's kind and assigned in payload order. -/
def buildInfo : PyKVs → List FieldDecl → Except PyExc PyKVs
  | .nil, _ => .ok .nil
  | .cons k v tl, flds =>
      match findField flds (to_snake k) with
      | none => buildInfo tl flds
      | some fd =>
          match (match fd.ftype with
                 | .prim => Except.ok v
                 | .record s => parser v (.cls s)
                 | .listRec s => parser v (.listOf s)) with
          | .error e => .error e
          | .ok pv =>
              match buildInfo tl flds with
              | .error e => .error e
              | .ok rest => .ok (.cons fd.fname pv rest)

end

mutual

/-- The `unpack` function of `models.py`. -/
def unpack : PyVal → Except PyExc PyVal
  | .vlist xs =>
      match unpackItems xs with
      | .error e => .error e
      | .ok ys => .ok (.vlist ys)
  | .vdict kvs =>
      match unpackEntries kvs with
      | .error e => .error e
      | .ok q => .ok (.vdict q)
  | .vinst _ flds =>
      match unpackEntries flds with
      | .error e => .error e
      | .ok q => .ok (.vdict q)
  | _ => .error .attributeError

/-- Elementwise `unpack` over a list (`[unpack(i) for i in k]`),
which recurses into every element whatever its type. -/
def unpackItems : PyItems → Except PyExc PyItems
  | .nil => .ok .nil
  | .cons v tl =>
      match unpack v with
      | .error e => .error e
      | .ok y =>
          match unpackItems tl with
          | .error e => .error e
          | .ok ys => .ok (.cons y ys)

/-- The attribute loop of `unpack`: each value that is a list or a
registered-class instance is unpacked, anything else passes through,
and the result is keyed by `to_lower_camel_case` of the attribute
name. -/
def unpackEntries : PyKVs → Except PyExc PyKVs
  | .nil => .ok .nil
  | .cons k v tl =>
      match (match v with
             | .vlist xs => unpack (.vlist xs)
             | .vinst c f => unpack (.vinst c f)
             | _ => Except.ok v) with
      | .error e => .error e
      | .ok w =>
          match unpackEntries tl with
          | .error e => .error e
          | .ok rest => .ok (.cons (to_lower_camel_case k) w rest)

end

/-- How `buildInfo` treats one matched value, as a standalone function
(the inline match of `buildInfo`, for restating its equations). -/
def parseField (v : PyVal) : FieldType → Except PyExc PyVal
  | .prim => .ok v
  | .record s => parser v (.cls s)
  | .listRec s => parser v (.listOf s)

/-- How `unpackEntries` treats one attribute value, as a standalone
function. -/
def unpackField : PyVal → Except PyExc PyVal
  | .vlist xs => unpack (.vlist xs)
  | .vinst c f => unpack (.vinst c f)
  | v => .ok v

example :
    parser (.vdict (.cons "onAccepted" (.vint 1) (.cons "onFulfilled" (.vint 2) .nil)))
      (.cls "ContractPayment") =
    .ok (.vinst "ContractPayment"
      (.cons "on_accepted" (.vint 1) (.cons "on_fulfilled" (.vint 2) .nil))) := by decide

example :
    unpack (.vinst "ContractPayment"
      (.cons "on_accepted" (.vint 1) (.cons "on_fulfilled" (.vint 2) .nil))) =
    .ok (.vdict (.cons "onAccepted" (.vint 1) (.cons "onFulfilled" (.vint 2) .nil))) := by
  decide

/-! ## Endpoint-surface result shaping (`SpacePyTradersV2/client.py`,
`Fleet.list_ships` lines 160-184 and `Fleet.get_ship` lines 213-231)

Only the code after `res = self.generic_api_call(...)` is modelled: it
receives the pipeline's return value and either builds the typed result
or returns `False`.  The `SpacePyTradersV2/models.py` module itself is
not under `src/`; per the spec the V2 marshaller is the same parser
design, so the embedded `parser` stands in for `models.parser` there
(its behaviour is irrelevant on the failure path these claims are
about). -/

/-- Python truthiness of a pipeline return value (`requests.Response`
defines `__bool__` as `self.ok`, i.e. status below 400; exception
instances are truthy; `None` and `False` are falsy). -/
def apiTruthy : ApiReturn → Bool
  | .noContent => false
  | .failureSentinel => false
  | .jsonValue v => pyValTruthy v
  | .rawResponse r => decide (r.statusCode < 400)
  | .excValue _ => true

/-- Python `res[key]` on a pipeline return value: dict subscripting for
a JSON dict body; `TypeError` for `False`, `None`, a raw response
object, or an exception value, none of which are subscriptable. -/
def apiSubscript : ApiReturn → String → Except PyExc PyVal
  | .jsonValue v, key => pySubscript v key
  | _, _ => .error .typeError

/-- The value an endpoint method returns to its caller. -/
inductive EndpointReturn where
  | value (v : PyVal)
  | falseSentinel
  deriving DecidableEq

/-- `Fleet.get_ship` after the pipeline call:
`return models.parser(res['data'], models.Ship) if res else False`.
The conditional expression evaluates `res` first, so a falsy pipeline
result returns `False` without touching `res['data']`. -/
def get_ship_post (res : ApiReturn) : Except PyExc EndpointReturn :=
  if apiTruthy res then
    match apiSubscript res "data" with
    | .error e => .error e
    | .ok d =>
        match parser d (.cls "Ship") with
        | .error e => .error e
        | .ok p => .ok (.value p)
  else .ok .falseSentinel

/-- `Fleet.list_ships` after the pipeline call:
`ret = {"ships": models.parser(res['data'], list[models.Ship]),
"meta": models.parser(res['meta'], models.Meta)}` followed by
`return ret if res else False` — the dict (and hence `res['data']`) is
evaluated before the truthiness check. -/
def list_ships_post (res : ApiReturn) : Except PyExc EndpointReturn :=
  match apiSubscript res "data" with
  | .error e => .error e
  | .ok d =>
      match parser d (.listOf "Ship") with
      | .error e => .error e
      | .ok ships =>
          match apiSubscript res "meta" with
          | .error e => .error e
          | .ok m =>
              match parser m (.cls "Meta") with
              | .error e => .error e
              | .ok meta =>
                  .ok (if apiTruthy res then
                        .value (.vdict (.cons "ships" ships (.cons "meta" meta .nil)))
                      else .falseSentinel)

/-! ## Pipeline lemmas and claim theorems for the client layer -/

/-- If every attempt from index `i` on is classified retryable, the
loop consumes all its fuel, performing one attempt and one
`throttleTime`-second sleep per unit of fuel, and ends in
`TooManyTriesException`. -/
theorem apiLoop_retry_exhausts (step : NetAttempt → AttemptOutcome) (tt : Nat)
    (net : Nat → NetAttempt) :
    ∀ fuel i, (∀ j, j < fuel → ∃ c, step (net (i + j)) = .retry c) →
    apiLoop step tt net i fuel = ⟨tooManyTries, fuel, fuel * tt⟩ := by
  intro fuel
  induction fuel with
  | zero => intro i _; simp [apiLoop]
  | succ n ih =>
      intro i h
      obtain ⟨c, hc⟩ := h 0 (Nat.succ_pos n)
      rw [Nat.add_zero] at hc
      have hrest := ih (i + 1) (fun j hj => by
        have hj2 := h (j + 1) (Nat.succ_lt_succ hj)
        rwa [← Nat.add_assoc, Nat.add_right_comm] at hj2)
      simp only [apiLoop, hc, hrest, Nat.succ_mul]

/-- Unfolding `generic_api_call` at a present token. -/
theorem generic_api_call_some (tok : String) (rawRes : Bool) (tt : Nat)
    (net : Nat → NetAttempt) :
    generic_api_call (some tok) rawRes tt net =
      .ok (apiLoop (classifyAttempt rawRes) tt net 0 10) := rfl

/-- Unfolding `generic_api_call_v1` at a present token. -/
theorem generic_api_call_v1_some (tok : String) (rawRes : Bool) (tt : Nat)
    (net : Nat → NetAttempt) :
    generic_api_call_v1 (some tok) rawRes tt net =
      .ok (apiLoop (classifyAttemptV1 rawRes) tt net 0 10) := rfl

/-- A run whose first attempt is terminal returns after exactly one
attempt and no sleep. -/
theorem apiLoop_first_done (step : NetAttempt → AttemptOutcome) (tt : Nat)
    (net : Nat → NetAttempt) (r : ApiReturn) (h : step (net 0) = .done r) :
    apiLoop step tt net 0 10 = ⟨.ok r, 1, 0⟩ := by
  show apiLoop step tt net 0 (9 + 1) = _
  simp only [apiLoop, h]

/-- A run whose first attempt is retryable sleeps `tt` seconds and
continues the loop at the next attempt with one unit of fuel spent. -/
theorem apiLoop_first_retry (step : NetAttempt → AttemptOutcome) (tt : Nat)
    (net : Nat → NetAttempt) (c : RetryClass) (h : step (net 0) = .retry c) :
    apiLoop step tt net 0 10 =
      ⟨(apiLoop step tt net 1 9).result,
       (apiLoop step tt net 1 9).attempts + 1,
       (apiLoop step tt net 1 9).sleepSeconds + tt⟩ := by
  show apiLoop step tt net 0 (9 + 1) = _
  simp only [apiLoop, h]

/-- A response whose body is a throttle error envelope, used as a
witness attempt stream. -/
def throttleEnvelope : PyVal :=
  .vdict (.cons "error" (.vdict (.cons "code" (.vint 42901)
    (.cons "message" (.vstr "rate limited") .nil))) .nil)

/-- A response body carrying an unknown-error envelope with code
4000. -/
def fatalEnvelope : PyVal :=
  .vdict (.cons "error" (.vdict (.cons "code" (.vint 4000)
    (.cons "message" (.vstr "bad request") .nil))) .nil)

/-- The inner error object of `fatalEnvelope`. -/
def fatalErrObj : PyVal :=
  .vdict (.cons "code" (.vint 4000) (.cons "message" (.vstr "bad request") .nil))

/-- C1: a pipeline call whose every attempt yields a response
classified as Throttle (error code 42901) or ServerTransient (error
code 500 or 409) performs exactly 10 network attempts — never an
11th — sleeping `throttle_time` seconds after each, and then fails by
raising `TooManyTriesException`. -/
theorem generic_api_call_exhausts_retries (tok : String) (rawRes : Bool)
    (tt : Nat) (net : Nat → NetAttempt)
    (h : ∀ i, i < 10 → ∃ c, classifyAttempt rawRes (net i) = .retry c) :
    generic_api_call (some tok) rawRes tt net = .ok ⟨tooManyTries, 10, 10 * tt⟩ := by
  rw [generic_api_call_some]
  rw [apiLoop_retry_exhausts (classifyAttempt rawRes) tt net 10 0
    (fun j hj => by simpa using h j hj)]

/-- Witness for C1: ten throttle envelopes in a row exhaust the loop. -/
theorem generic_api_call_exhausts_retries_witness :
    generic_api_call (some "token") false 10
      (fun _ => .resp ⟨200, .ok throttleEnvelope⟩) = .ok ⟨tooManyTries, 10, 100⟩ :=
  generic_api_call_exhausts_retries "token" false 10 _
    (fun _ _ => ⟨.throttle, by decide⟩)

/-- C2: an error envelope with numeric code 42901 is classified
Throttle and the run sleeps `throttle_time` seconds and continues the
loop; code 500 or 409 is classified ServerTransient with the same
sleep-and-continue; any other numeric code ends the call right after
that single attempt with the `False` failure sentinel — no retry and no
exception escaping the pipeline. -/
theorem generic_api_call_error_classification
    (rawRes : Bool) (sc : Nat) (j errObj msg : PyVal) (c : Int)
    (hsc : sc ≠ 204)
    (hin : pyContains j "error" = .ok true)
    (hobj : pySubscript j "error" = .ok errObj)
    (hcode : pySubscript errObj "code" = .ok (.vint c))
    (hmsg : pySubscript errObj "message" = .ok msg) :
    (c = 42901 → classifyResponse rawRes ⟨sc, .ok j⟩ = .retry .throttle) ∧
    ((c = 500 ∨ c = 409) →
      classifyResponse rawRes ⟨sc, .ok j⟩ = .retry .serverTransient) ∧
    (∀ cl, classifyResponse rawRes ⟨sc, .ok j⟩ = .retry cl →
      ∀ (tt : Nat) (net : Nat → NetAttempt), net 0 = .resp ⟨sc, .ok j⟩ →
        apiLoop (classifyAttempt rawRes) tt net 0 10 =
          ⟨(apiLoop (classifyAttempt rawRes) tt net 1 9).result,
           (apiLoop (classifyAttempt rawRes) tt net 1 9).attempts + 1,
           (apiLoop (classifyAttempt rawRes) tt net 1 9).sleepSeconds + tt⟩) ∧
    (c ≠ 42901 → c ≠ 500 → c ≠ 409 →
      ∀ (tok : String) (tt : Nat) (net : Nat → NetAttempt),
        net 0 = .resp ⟨sc, .ok j⟩ →
        generic_api_call (some tok) rawRes tt net =
          .ok ⟨.ok .failureSentinel, 1, 0⟩) := by
  have hclass : classifyResponse rawRes ⟨sc, .ok j⟩ =
      (if c = 42901 then .retry .throttle
       else if c = 500 ∨ c = 409 then .retry .serverTransient
       else .done .failureSentinel) := by
    simp only [classifyResponse, classifyBody, hsc, if_false, hin, hobj, hcode,
      hmsg, PyVal.vint.injEq, ite_false]
  refine ⟨?_, ?_, ?_, ?_⟩
  · intro h42
    simp [hclass, h42]
  · intro h5
    have h42 : ¬ c = 42901 := by rcases h5 with h | h <;> omega
    simp [hclass, h42, h5]
  · intro cl hcl tt net hnet
    exact apiLoop_first_retry _ tt net cl (by rw [hnet]; exact hcl)
  · intro h1 h2 h3 tok tt net hnet
    rw [generic_api_call_some]
    rw [apiLoop_first_done _ tt net .failureSentinel
      (by rw [hnet]; show classifyResponse rawRes ⟨sc, .ok j⟩ = _
          simp [hclass, h1, h2, h3])]

/-- Witness for C2: a code-4000 envelope yields the failure sentinel
after a single attempt. -/
theorem generic_api_call_error_classification_witness :
    generic_api_call (some "t") false 10
      (fun _ => .resp ⟨200, .ok fatalEnvelope⟩) =
      .ok ⟨.ok .failureSentinel, 1, 0⟩ :=
  (generic_api_call_error_classification false 200 fatalEnvelope fatalErrObj
      (.vstr "bad request") 4000 (by decide) (by decide) (by decide) (by decide)
      (by decide)).2.2.2 (by decide) (by decide) (by decide) "t" 10 _ rfl

/-- C3 counterexample: the V1 pipeline (`SpacePyTraders/client.py`) has
no status-204 check; a 204 response with an empty, undecodable body
makes `r.json()` raise, and the call returns the decode exception as a
value after one attempt — not null. -/
theorem v1_no_204_short_circuit :
    generic_api_call_v1 (some "t") false 10
      (fun _ => .resp ⟨204, .error .decodeError⟩) =
      .ok ⟨.ok (.excValue .decodeError), 1, 0⟩ ∧
    (ApiReturn.excValue .decodeError) ≠ .noContent := by decide

/-- C3 (amended to the V2 pipeline): in `SpacePyTradersV2/client.py`
every response with status code 204 makes the call return null (Python
`None`) immediately as success, after exactly one attempt, without the
body ever being decoded and regardless of what the body holds; the V1
pipeline instead proceeds to decode the body. -/
theorem v2_204_short_circuit (rawRes : Bool) (r : HttpResponse)
    (h : r.statusCode = 204) :
    classifyResponse rawRes r = .done .noContent ∧
    ∀ (tok : String) (tt : Nat) (net : Nat → NetAttempt), net 0 = .resp r →
      generic_api_call (some tok) rawRes tt net = .ok ⟨.ok .noContent, 1, 0⟩ := by
  have hclass : classifyResponse rawRes r = .done .noContent := by
    simp [classifyResponse, h]
  refine ⟨hclass, fun tok tt net hnet => ?_⟩
  rw [generic_api_call_some]
  rw [apiLoop_first_done _ tt net .noContent (by rw [hnet]; exact hclass)]

/-- Witness for C3 (amended): a 204 response whose body would not even
decode still yields null after one attempt in the V2 pipeline. -/
theorem v2_204_short_circuit_witness :
    generic_api_call (some "t") false 10
      (fun _ => .resp ⟨204, .error .decodeError⟩) = .ok ⟨.ok .noContent, 1, 0⟩ :=
  (v2_204_short_circuit false ⟨204, .error .decodeError⟩ rfl).2 "t" 10 _ rfl

/-- C7 counterexample: the V1 transport (`SpacePyTraders/client.py`)
has no PATCH branch, so a PATCH request is treated as an invalid
method — logged and never sent — rather than sent as a JSON body. -/
theorem v1_patch_not_sent :
    make_request_v1 "PATCH" = .invalidNotSent ∧
    TransportAction.invalidNotSent ≠ .send .jsonBody := by decide

/-- C7 (amended): in the V2 transport GET sends a query string, POST
and PATCH send a JSON body, PUT and DELETE send form-encoded data, and
any other verb is logged as a programmer error with no request sent; in
the V1 transport the same holds except that PATCH is itself outside the
handled set and is logged and not sent. -/
theorem make_request_encoding :
    make_request "GET" = .send .query ∧
    make_request "POST" = .send .jsonBody ∧
    make_request "PATCH" = .send .jsonBody ∧
    make_request "PUT" = .send .formData ∧
    make_request "DELETE" = .send .formData ∧
    (∀ m : String, m ∉ (["GET", "POST", "PUT", "DELETE", "PATCH"] : List String) →
      make_request m = .invalidNotSent) ∧
    make_request_v1 "GET" = .send .query ∧
    make_request_v1 "POST" = .send .jsonBody ∧
    make_request_v1 "PUT" = .send .formData ∧
    make_request_v1 "DELETE" = .send .formData ∧
    (∀ m : String, m ∉ (["GET", "POST", "PUT", "DELETE"] : List String) →
      make_request_v1 m = .invalidNotSent) := by
  refine ⟨rfl, rfl, rfl, rfl, rfl, ?_, rfl, rfl, rfl, rfl, ?_⟩
  · intro m hm
    simp only [List.mem_cons, List.not_mem_nil, or_false, not_or] at hm
    obtain ⟨h1, h2, h3, h4, h5⟩ := hm
    simp [make_request, h1, h2, h3, h4, h5]
  · intro m hm
    simp only [List.mem_cons, List.not_mem_nil, or_false, not_or] at hm
    obtain ⟨h1, h2, h3, h4⟩ := hm
    simp [make_request_v1, h1, h2, h3, h4]

/-- Witness for C7 (amended): an unhandled verb is not sent. -/
theorem make_request_encoding_witness :
    make_request "HEAD" = .invalidNotSent ∧
    make_request_v1 "PATCH" = .invalidNotSent :=
  ⟨make_request_encoding.2.2.2.2.2.1 "HEAD" (by decide),
   make_request_encoding.2.2.2.2.2.2.2.2.2.2 "PATCH" (by decide)⟩

/-- C8: when the network invocation raises, or the response body fails
to decode (outside the 204 path), the exception is caught inside the
pipeline and returned to the caller as a value — not propagated — after
exactly one attempt, with no retry; this holds in both pipelines. -/
theorem generic_api_call_returns_exception
    (tok : String) (rawRes : Bool) (tt : Nat) (net : Nat → NetAttempt) (e : PyExc)
    (h : net 0 = .raised e ∨
      ∃ r, net 0 = .resp r ∧ r.statusCode ≠ 204 ∧ r.body = .error e) :
    generic_api_call (some tok) rawRes tt net = .ok ⟨.ok (.excValue e), 1, 0⟩ ∧
    generic_api_call_v1 (some tok) rawRes tt net = .ok ⟨.ok (.excValue e), 1, 0⟩ := by
  have hstep : classifyAttempt rawRes (net 0) = .done (.excValue e) ∧
      classifyAttemptV1 rawRes (net 0) = .done (.excValue e) := by
    rcases h with h | ⟨r, hr, hsc, hb⟩
    · rw [h]; exact ⟨rfl, rfl⟩
    · rw [hr]
      constructor
      · simp [classifyAttempt, classifyResponse, hsc, classifyBody, hb]
      · simp [classifyAttemptV1, classifyResponseV1, classifyBody, hb]
  constructor
  · rw [generic_api_call_some, apiLoop_first_done _ tt net _ hstep.1]
  · rw [generic_api_call_v1_some, apiLoop_first_done _ tt net _ hstep.2]

/-- Witness for C8: a connection-level exception comes back as a
value. -/
theorem generic_api_call_returns_exception_witness :
    generic_api_call (some "t") false 10 (fun _ => .raised .connectionError) =
      .ok ⟨.ok (.excValue .connectionError), 1, 0⟩ :=
  (generic_api_call_returns_exception "t" false 10 _ .connectionError
    (Or.inl rfl)).1

/-- C10: calling either pipeline with `token = None` (its default)
raises `TypeError` while building the Authorization header
(`'Bearer ' + None`), before the retry loop, before the rate-limited
`make_request` is ever entered and hence before any network attempt;
the result does not depend on the attempt stream at all. -/
theorem generic_api_call_none_token (rawRes : Bool) (tt : Nat)
    (net net2 : Nat → NetAttempt) :
    generic_api_call none rawRes tt net = .error .typeError ∧
    generic_api_call_v1 none rawRes tt net = .error .typeError ∧
    buildHeaders none = .error .typeError ∧
    generic_api_call none rawRes tt net = generic_api_call none rawRes tt net2 :=
  ⟨rfl, rfl, rfl, rfl⟩

/-- C5 evaluation at the failing input: the field names `tradeSymbol`
(`ConstructionMaterial`) and `isComplete` (`Construction`) are declared
in camelCase, so `to_snake (to_lower_camel_case name) = name` fails on
them; moreover no wire key can ever match them (`to_snake` output is
always lowercase), so parsing a `ConstructionMaterial` payload — even
one whose keys are exactly the declared names — raises `TypeError` for
a missing required field. -/
theorem camel_declared_fields_break :
    to_snake (to_lower_camel_case "tradeSymbol") = "tradesymbol" ∧
    ("tradesymbol" : String) ≠ "tradeSymbol" ∧
    to_snake (to_lower_camel_case "isComplete") = "iscomplete" ∧
    ("iscomplete" : String) ≠ "isComplete" ∧
    (req "tradeSymbol" .prim) ∈ fieldsOf "ConstructionMaterial" ∧
    findField (fieldsOf "ConstructionMaterial") (to_snake "tradeSymbol") = none ∧
    parser (.vdict (.cons "tradeSymbol" (.vstr "IRON")
      (.cons "required" (.vint 1) (.cons "fulfilled" (.vint 0) .nil))))
      (.cls "ConstructionMaterial") = .error .typeError := by decide

/-- C6 counterexample: when the pipeline returns the `False` sentinel,
`Fleet.list_ships` evaluates `res['data']` while building its result
dict before the truthiness check, so it raises `TypeError` instead of
returning `False`. -/
theorem list_ships_false_sentinel_raises :
    list_ships_post .failureSentinel = .error .typeError ∧
    (Except.error PyExc.typeError : Except PyExc EndpointReturn) ≠
      .ok .falseSentinel := by decide

/-- C6 (amended): endpoint methods that inspect the pipeline result
inside the conditional expression (such as `Fleet.get_ship`) return the
`False` sentinel without raising when the pipeline signals failure;
methods that subscript the result while building their return value
before the check (such as `Fleet.list_ships`) raise `TypeError`
instead. -/
theorem endpoint_sentinel_behavior :
    get_ship_post .failureSentinel = .ok .falseSentinel ∧
    list_ships_post .failureSentinel = .error .typeError := by decide

/-! ## Round-trip infrastructure for the marshaller

The spec's round-trip property (`unparse(parse(payload, T))` reproduces
the payload) is settled with a well-formedness hypothesis `wfPayload`
on payloads and an agreement conclusion `agreesDict` relating the
original payload to the re-emitted dict, both defined below over the
schema table `fieldsOf`. -/

/-- Induction along the spine of an association list (the `induction`
tactic cannot use the mutual recursor of the `PyVal` family directly,
and spine recursion is all the association-list lemmas need). -/
theorem kvsSpineInduction {motive : PyKVs → Prop} (nil : motive .nil)
    (cons : ∀ k v tl, motive tl → motive (.cons k v tl)) : ∀ kvs, motive kvs
  | .nil => nil
  | .cons k v tl => cons k v tl (kvsSpineInduction nil cons tl)

/-- Induction along the spine of a value list. -/
theorem itemsSpineInduction {motive : PyItems → Prop} (nil : motive .nil)
    (cons : ∀ v tl, motive tl → motive (.cons v tl)) : ∀ xs, motive xs
  | .nil => nil
  | .cons v tl => cons v tl (itemsSpineInduction nil cons tl)

/-- Entry membership in an association list. -/
def MemEnt : PyKVs → String → PyVal → Prop
  | .nil, _, _ => False
  | .cons k v tl, n, w => (k = n ∧ v = w) ∨ MemEnt tl n w

/-- Does some key of `kvs` have snake image `n` (i.e. would the payload
assign the declared field named `n`)? -/
def hasKeyFor : PyKVs → String → Bool
  | .nil, _ => false
  | .cons k _ tl, n => to_snake k = n || hasKeyFor tl n

/-- All keys of the payload have pairwise distinct snake images. -/
def snakeKeysDistinct : PyKVs → Bool
  | .nil => true
  | .cons k _ tl => !hasKeyFor tl (to_snake k) && snakeKeysDistinct tl

/-- Every required (non-optional) declared field has a matching payload
key. -/
def requiredPresent (kvs : PyKVs) : List FieldDecl → Bool
  | [] => true
  | fd :: rest => (fd.optional || hasKeyFor kvs fd.fname) && requiredPresent kvs rest

/-- Values acceptable for a plain (non-record) field in a well-formed
payload: anything that `unpack` passes through untouched, i.e. not a
list and not a registered-class instance. -/
def isScalarOk : PyVal → Bool
  | .vlist _ => false
  | .vinst _ _ => false
  | _ => true

/-- The declared names of a field list, in order. -/
def fieldNames (F : List FieldDecl) : List String := F.map (fun fd => fd.fname)

/-- The wire (lower-camel) names of a field list, in order. -/
def camelNames (F : List FieldDecl) : List String :=
  F.map (fun fd => to_lower_camel_case fd.fname)

theorem findField_fname {F : List FieldDecl} {n : String} {fd : FieldDecl}
    (h : findField F n = some fd) : fd.fname = n := by
  induction F with
  | nil => simp [findField] at h
  | cons fd2 rest ih =>
      by_cases he : fd2.fname = n
      · simp only [findField, he, if_pos] at h
        cases h; exact he
      · simp only [findField, he, if_neg, if_false] at h
        exact ih h

theorem findField_mem {F : List FieldDecl} {n : String} {fd : FieldDecl}
    (h : findField F n = some fd) : fd ∈ F := by
  induction F with
  | nil => simp [findField] at h
  | cons fd2 rest ih =>
      by_cases he : fd2.fname = n
      · simp only [findField, he, if_pos] at h
        cases h; exact List.mem_cons_self _ _
      · simp only [findField, he, if_neg, if_false] at h
        exact List.mem_cons_of_mem _ (ih h)

theorem findField_of_mem {F : List FieldDecl} {fd : FieldDecl} (h : fd ∈ F) :
    ∃ fd2, findField F fd.fname = some fd2 := by
  induction F with
  | nil => simp at h
  | cons fd2 rest ih =>
      by_cases he : fd2.fname = fd.fname
      · exact ⟨fd2, by simp [findField, he]⟩
      · rcases List.mem_cons.mp h with h | h
        · subst h; simp at he
        · obtain ⟨fd3, h3⟩ := ih h
          exact ⟨fd3, by simp [findField, he, h3]⟩

theorem hasKeyFor_exists {kvs : PyKVs} {n : String}
    (h : hasKeyFor kvs n = true) : ∃ k v, MemEnt kvs k v ∧ to_snake k = n := by
  induction kvs using kvsSpineInduction with
  | nil => simp [hasKeyFor] at h
  | cons k v tl ih =>
      simp only [hasKeyFor, Bool.or_eq_true, decide_eq_true_eq] at h
      rcases h with h | h
      · exact ⟨k, v, Or.inl ⟨rfl, rfl⟩, h⟩
      · obtain ⟨k2, v2, hm, hs⟩ := ih h
        exact ⟨k2, v2, Or.inr hm, hs⟩

theorem hasKeyFor_of_mem {kvs : PyKVs} {k : String} {v : PyVal}
    (h : MemEnt kvs k v) : hasKeyFor kvs (to_snake k) = true := by
  induction kvs using kvsSpineInduction with
  | nil => exact absurd h id
  | cons k2 v2 tl ih =>
      rcases h with ⟨hk, _⟩ | h
      · subst hk; simp [hasKeyFor]
      · simp [hasKeyFor, ih h]

theorem requiredPresent_spec {kvs : PyKVs} {F : List FieldDecl}
    (h : requiredPresent kvs F = true) :
    ∀ fd ∈ F, fd.optional = true ∨ hasKeyFor kvs fd.fname = true := by
  induction F with
  | nil => intro fd hm; simp at hm
  | cons fd2 rest ih =>
      simp only [requiredPresent, Bool.and_eq_true, Bool.or_eq_true] at h
      intro fd hm
      rcases List.mem_cons.mp hm with hm | hm
      · subst hm; exact h.1
      · exact ih h.2 fd hm

theorem lookupLast_eq_none_iff (kvs : PyKVs) (n : String) :
    lookupLast kvs n = none ↔ n ∉ namesOf kvs := by
  induction kvs using kvsSpineInduction with
  | nil => simp [lookupLast, namesOf]
  | cons k v tl ih =>
      simp only [lookupLast, namesOf, List.mem_cons]
      cases hl : lookupLast tl n with
      | some w =>
          simp only []
          constructor
          · intro h; cases h
          · intro h
            exact absurd (ih.mpr (fun hmem => h (Or.inr hmem))) (by simp [hl])
      | none =>
          have htl := ih.mp hl
          by_cases hk : k = n
          · simp [hk, htl]
          · simp only [hl, if_neg hk]
            constructor
            · rintro - (h | h)
              · exact hk h.symm
              · exact htl h
            · intro _; trivial

mutual

/-- Well-formedness of a payload against a declared class: the payload
is a dict, its keys have pairwise distinct snake images, every key
matching a declared field is in canonical wire form with a value of the
field's shape, and every required field is matched by some key. -/
def wfPayload : PyVal → String → Bool
  | .vdict kvs, t =>
      snakeKeysDistinct kvs && wfEntries kvs (fieldsOf t) &&
        requiredPresent kvs (fieldsOf t)
  | _, _ => false

/-- Per-entry well-formedness: unmatched keys are unconstrained
(`parser` drops them); a key matched to a declared field must be the
canonical wire spelling of the field name and carry a value of the
field's shape (a scalar for plain fields, a well-formed payload for
record fields, a list of well-formed payloads for record-list
fields). -/
def wfEntries : PyKVs → List FieldDecl → Bool
  | .nil, _ => true
  | .cons k v tl, flds =>
      (match findField flds (to_snake k) with
       | none => true
       | some fd =>
           decide (to_lower_camel_case (to_snake k) = k) &&
           (match fd.ftype with
            | .prim =>
                (match v with
                 | .vlist _ => false
                 | .vinst _ _ => false
                 | _ => true)
            | .record s => wfPayload v s
            | .listRec s =>
                (match v with
                 | .vlist xs => wfItems xs s
                 | _ => false)))
      && wfEntries tl flds

/-- Elementwise well-formedness of a record list. -/
def wfItems : PyItems → String → Bool
  | .nil, _ => true
  | .cons v tl, s => wfPayload v s && wfItems tl s

end

/-- The per-value part of `wfEntries`, standalone. -/
def wfValue (v : PyVal) : FieldType → Bool
  | .prim => isScalarOk v
  | .record s => wfPayload v s
  | .listRec s =>
      match v with
      | .vlist xs => wfItems xs s
      | _ => false

theorem wfEntries_cons (k : String) (v : PyVal) (tl : PyKVs)
    (flds : List FieldDecl) :
    wfEntries (.cons k v tl) flds =
      ((match findField flds (to_snake k) with
        | none => true
        | some fd =>
            decide (to_lower_camel_case (to_snake k) = k) && wfValue v fd.ftype)
       && wfEntries tl flds) := by
  cases hf : findField flds (to_snake k) with
  | none => cases v <;> simp [wfEntries, hf]
  | some fd =>
      obtain ⟨n, ft, o⟩ := fd
      cases ft <;> cases v <;> simp [wfEntries, hf, wfValue, isScalarOk]

mutual

/-- Agreement of the re-emitted dict `q` with the original payload
`kvs` at class `t`: every payload entry whose key matches a declared
field is reproduced — `q` holds, at the original key, a value that
agrees with the original (equal for plain fields, recursively agreeing
for record and record-list fields).  Entries matching no declared field
are dropped and unconstrained. -/
def agreesDict : PyKVs → PyKVs → String → Bool
  | .nil, _, _ => true
  | .cons k v tl, q, t =>
      (match findField (fieldsOf t) (to_snake k) with
       | none => true
       | some fd =>
           match lookupLast q k with
           | none => false
           | some w =>
               match fd.ftype with
               | .prim => decide (w = v)
               | .record s =>
                   (match v, w with
                    | .vdict kv2, .vdict q2 => agreesDict kv2 q2 s
                    | _, _ => false)
               | .listRec s =>
                   (match v, w with
                    | .vlist xs, .vlist ys => agreesItems xs ys s
                    | _, _ => false))
      && agreesDict tl q t

/-- Pointwise agreement of two record lists. -/
def agreesItems : PyItems → PyItems → String → Bool
  | .nil, .nil, _ => true
  | .cons v vs, .cons w ws, s =>
      (match v, w with
       | .vdict kv2, .vdict q2 => agreesDict kv2 q2 s
       | _, _ => false) && agreesItems vs ws s
  | _, _, _ => false

end

/-- The per-value part of `agreesDict`, standalone. -/
def agreesVal (v w : PyVal) : FieldType → Bool
  | .prim => decide (w = v)
  | .record s =>
      match v, w with
      | .vdict kv2, .vdict q2 => agreesDict kv2 q2 s
      | _, _ => false
  | .listRec s =>
      match v, w with
      | .vlist xs, .vlist ys => agreesItems xs ys s
      | _, _ => false

theorem agreesDict_cons (k : String) (v : PyVal) (tl q : PyKVs) (t : String) :
    agreesDict (.cons k v tl) q t =
      ((match findField (fieldsOf t) (to_snake k) with
        | none => true
        | some fd =>
            match lookupLast q k with
            | none => false
            | some w => agreesVal v w fd.ftype)
       && agreesDict tl q t) := by
  cases hf : findField (fieldsOf t) (to_snake k) with
  | none => cases v <;> simp [agreesDict, hf]
  | some fd =>
      obtain ⟨n, ft, o⟩ := fd
      cases hw : lookupLast q k with
      | none => cases ft <;> cases v <;> simp [agreesDict, hf, hw, agreesVal]
      | some w =>
          cases ft <;> cases v <;> cases w <;>
            simp [agreesDict, hf, hw, agreesVal]

theorem buildInfo_cons (k : String) (v : PyVal) (tl : PyKVs)
    (flds : List FieldDecl) :
    buildInfo (.cons k v tl) flds =
      (match findField flds (to_snake k) with
       | none => buildInfo tl flds
       | some fd =>
           match parseField v fd.ftype with
           | .error e => .error e
           | .ok pv =>
               match buildInfo tl flds with
               | .error e => .error e
               | .ok rest => .ok (.cons fd.fname pv rest)) := by
  cases hf : findField flds (to_snake k) with
  | none => simp [buildInfo, hf]
  | some fd =>
      obtain ⟨n, ft, o⟩ := fd
      cases ft <;> simp [buildInfo, hf, parseField]

theorem unpackEntries_cons (k : String) (v : PyVal) (tl : PyKVs) :
    unpackEntries (.cons k v tl) =
      (match unpackField v with
       | .error e => .error e
       | .ok w =>
           match unpackEntries tl with
           | .error e => .error e
           | .ok rest => .ok (.cons (to_lower_camel_case k) w rest)) := by
  cases v <;> simp [unpackEntries, unpackField]

theorem isScalarOk_unpackField {v : PyVal} (h : isScalarOk v = true) :
    unpackField v = .ok v := by
  cases v <;> simp_all [isScalarOk, unpackField]

/-- The value `constructFields` assigns to each declared field when it
succeeds: the (last) assignment from `class_info` when one exists, the
`None` default otherwise. -/
def constructSpec (info : PyKVs) : List FieldDecl → PyKVs
  | [] => .nil
  | fd :: rest =>
      .cons fd.fname ((lookupLast info fd.fname).getD .vnone)
        (constructSpec info rest)

theorem constructFields_ok (info : PyKVs) (F : List FieldDecl)
    (h : ∀ fd ∈ F, fd.optional = true ∨ lookupLast info fd.fname ≠ none) :
    constructFields info F = .ok (constructSpec info F) := by
  induction F with
  | nil => rfl
  | cons fd rest ih =>
      have hrest := ih (fun fd2 h2 => h fd2 (List.mem_cons_of_mem fd h2))
      simp only [constructFields, hrest, constructSpec]
      cases hl : lookupLast info fd.fname with
      | some v => simp
      | none =>
          have hopt : fd.optional = true := by
            rcases h fd (List.mem_cons_self fd rest) with hopt | hne
            · exact hopt
            · exact absurd hl hne
          simp [hopt]

theorem constructSpec_names (info : PyKVs) (F : List FieldDecl) :
    namesOf (constructSpec info F) = fieldNames F := by
  induction F with
  | nil => rfl
  | cons fd rest ih =>
      simp only [constructSpec, namesOf, fieldNames, List.map_cons, ih]

theorem constructSpec_lookup_none (info : PyKVs) (F : List FieldDecl)
    {n : String} (h : n ∉ fieldNames F) :
    lookupLast (constructSpec info F) n = none := by
  rw [lookupLast_eq_none_iff, constructSpec_names]
  exact h

theorem constructSpec_lookup (info : PyKVs) (F : List FieldDecl)
    {fd : FieldDecl} (hmem : fd ∈ F) (hnodup : (fieldNames F).Nodup) :
    lookupLast (constructSpec info F) fd.fname =
      some ((lookupLast info fd.fname).getD .vnone) := by
  induction F with
  | nil => simp at hmem
  | cons fd2 rest ih =>
      have hnd := hnodup
      simp only [fieldNames, List.map_cons, List.nodup_cons] at hnd
      rcases List.mem_cons.mp hmem with he | hm
      · subst he
        have hnotin : fd.fname ∉ fieldNames rest := by
          simpa [fieldNames] using hnd.1
        simp [constructSpec, lookupLast,
          constructSpec_lookup_none info rest hnotin]
      · have := ih hm (by simpa [fieldNames] using hnd.2)
        simp only [constructSpec, lookupLast, this]

theorem constructSpec_mem (info : PyKVs) (F : List FieldDecl) {n : String}
    {v : PyVal} (h : MemEnt (constructSpec info F) n v) :
    ∃ fd ∈ F, fd.fname = n ∧ v = (lookupLast info fd.fname).getD .vnone := by
  induction F with
  | nil => exact absurd h id
  | cons fd rest ih =>
      rcases h with ⟨hk, hv⟩ | h
      · exact ⟨fd, List.mem_cons_self fd rest, hk, hv.symm⟩
      · obtain ⟨fd2, hm, he, hv⟩ := ih h
        exact ⟨fd2, List.mem_cons_of_mem fd hm, he, hv⟩

/-- Pointwise description of a successful `unpackEntries` run: each
value is replaced by its `unpackField` image and each key by its wire
spelling. -/
inductive UnpEnt : PyKVs → PyKVs → Prop where
  | nil : UnpEnt .nil .nil
  | cons {k : String} {v w : PyVal} {tl q : PyKVs} :
      unpackField v = .ok w → UnpEnt tl q →
      UnpEnt (.cons k v tl) (.cons (to_lower_camel_case k) w q)

theorem unpackEntries_ok (flds : PyKVs)
    (h : ∀ k v, MemEnt flds k v → ∃ w, unpackField v = .ok w) :
    ∃ q, unpackEntries flds = .ok q ∧ UnpEnt flds q := by
  induction flds using kvsSpineInduction with
  | nil => exact ⟨.nil, rfl, .nil⟩
  | cons k v tl ih =>
      obtain ⟨w, hw⟩ := h k v (Or.inl ⟨rfl, rfl⟩)
      obtain ⟨q, hq, hrel⟩ := ih (fun k2 v2 hm => h k2 v2 (Or.inr hm))
      refine ⟨.cons (to_lower_camel_case k) w q, ?_, .cons hw hrel⟩
      rw [unpackEntries_cons]
      simp [hw, hq]

theorem unpEnt_names {flds q : PyKVs} (h : UnpEnt flds q) :
    namesOf q = (namesOf flds).map to_lower_camel_case := by
  induction h with
  | nil => rfl
  | cons hw hrel ih => simp [namesOf, ih]

theorem unpEnt_lookup_last {flds q : PyKVs} (h : UnpEnt flds q) (n : String)
    (hinj : ∀ m ∈ namesOf flds,
      to_lower_camel_case m = to_lower_camel_case n → m = n) :
    ∀ v, lookupLast flds n = some v →
      ∃ w, unpackField v = .ok w ∧
        lookupLast q (to_lower_camel_case n) = some w := by
  induction h with
  | nil => intro v hv; simp [lookupLast] at hv
  | @cons k v0 w0 tl q0 hw hrel ih =>
      intro v hv
      have hinj2 : ∀ m ∈ namesOf tl,
          to_lower_camel_case m = to_lower_camel_case n → m = n :=
        fun m hm => hinj m (by simp [namesOf, hm])
      simp only [lookupLast] at hv
      cases hl : lookupLast tl n with
      | some v2 =>
          rw [hl] at hv
          have hv2 : v2 = v := by injection hv
          subst hv2
          obtain ⟨w, hw2, hq⟩ := ih hinj2 _ hl
          exact ⟨w, hw2, by simp only [lookupLast, hq]⟩
      | none =>
          rw [hl] at hv
          by_cases hk : k = n
          · subst hk
            simp only [if_pos rfl] at hv
            have hv2 : v0 = v := by injection hv
            subst hv2
            have hq0 : lookupLast q0 (to_lower_camel_case k) = none := by
              rw [lookupLast_eq_none_iff, unpEnt_names hrel]
              intro hmem
              obtain ⟨m, hm, hcm⟩ := List.mem_map.mp hmem
              have := hinj2 m hm hcm
              subst this
              exact (lookupLast_eq_none_iff tl m).mp hl hm
            refine ⟨w0, hw, ?_⟩
            simp [lookupLast, hq0]
          · simp [if_neg hk] at hv

/-- A parsed field value `pv` faithfully represents the original
payload value `v` at field kind `ft`: unpacking it succeeds and the
result agrees with `v`. -/
def FieldRT (v pv : PyVal) (ft : FieldType) : Prop :=
  ∃ w, unpackField pv = .ok w ∧ agreesVal v w ft = true

/-- Pointwise description of a successful `buildInfo` run: unmatched
keys contribute nothing; a key matched to field `fd` contributes an
assignment of a faithfully parsed value to `fd`'s name. -/
inductive InfoRel (F : List FieldDecl) : PyKVs → PyKVs → Prop where
  | nil : InfoRel F .nil .nil
  | skip {k : String} {v : PyVal} {tl info : PyKVs} :
      findField F (to_snake k) = none → InfoRel F tl info →
      InfoRel F (.cons k v tl) info
  | keep {k : String} {v pv : PyVal} {tl info : PyKVs} {fd : FieldDecl} :
      findField F (to_snake k) = some fd → FieldRT v pv fd.ftype →
      InfoRel F tl info → InfoRel F (.cons k v tl) (.cons fd.fname pv info)

theorem infoRel_lookup_some {F : List FieldDecl} {kvs info : PyKVs}
    (h : InfoRel F kvs info) :
    ∀ {n : String} {pv : PyVal}, lookupLast info n = some pv →
    ∃ k v fd, MemEnt kvs k v ∧ findField F (to_snake k) = some fd ∧
      fd.fname = n ∧ FieldRT v pv fd.ftype := by
  induction h with
  | nil => intro n pv h; simp [lookupLast] at h
  | skip hf hrel ih =>
      intro n pv hl
      obtain ⟨k2, v2, fd, hm, hff, he, hrt⟩ := ih hl
      exact ⟨k2, v2, fd, Or.inr hm, hff, he, hrt⟩
  | @keep k v pv tl info fd hf hrt hrel ih =>
      intro n pv2 hl
      simp only [lookupLast] at hl
      cases hli : lookupLast info n with
      | some pv3 =>
          rw [hli] at hl
          have : pv3 = pv2 := by injection hl
          subst this
          obtain ⟨k2, v2, fd2, hm, hff, he, hrt2⟩ := ih hli
          exact ⟨k2, v2, fd2, Or.inr hm, hff, he, hrt2⟩
      | none =>
          rw [hli] at hl
          by_cases hk : fd.fname = n
          · simp only [if_pos hk] at hl
            have : pv = pv2 := by injection hl
            subst this
            exact ⟨k, v, fd, Or.inl ⟨rfl, rfl⟩, hf, hk, hrt⟩
          · simp [if_neg hk] at hl

theorem infoRel_lookup_none {F : List FieldDecl} {kvs info : PyKVs}
    (h : InfoRel F kvs info) {n : String}
    (hn : hasKeyFor kvs n = false) : lookupLast info n = none := by
  cases hl : lookupLast info n with
  | none => rfl
  | some pv =>
      obtain ⟨k, v, fd, hm, hff, he, -⟩ := infoRel_lookup_some h hl
      have hsk : to_snake k = n := (findField_fname hff).symm.trans he
      have h1 : hasKeyFor kvs n = true := by
        rw [← hsk]; exact hasKeyFor_of_mem hm
      simp [h1] at hn

theorem infoRel_lookup_of_entry {F : List FieldDecl} {kvs info : PyKVs}
    (h : InfoRel F kvs info) :
    snakeKeysDistinct kvs = true →
    ∀ {k : String} {v : PyVal} {fd : FieldDecl},
      MemEnt kvs k v → findField F (to_snake k) = some fd →
      ∃ pv, lookupLast info fd.fname = some pv ∧ FieldRT v pv fd.ftype := by
  induction h with
  | nil => intro _ k v fd hm; exact absurd hm id
  | @skip k0 v0 tl info0 hf hrel ih =>
      intro hdist k v fd hm hff
      simp only [snakeKeysDistinct, Bool.and_eq_true] at hdist
      rcases hm with ⟨hk, hv⟩ | hm
      · subst hk; rw [hf] at hff; cases hff
      · exact ih hdist.2 hm hff
  | @keep k0 v0 pv0 tl info0 fd0 hf hrt hrel ih =>
      intro hdist k v fd hm hff
      simp only [snakeKeysDistinct, Bool.and_eq_true, Bool.not_eq_true'] at hdist
      rcases hm with ⟨hk, hv⟩ | hm
      · subst hk; subst hv
        rw [hf] at hff
        have hfd : fd0 = fd := by injection hff
        subst hfd
        have hnone : lookupLast info0 fd0.fname = none := by
          apply infoRel_lookup_none hrel
          rw [findField_fname hf]
          exact hdist.1
        exact ⟨pv0, by simp [lookupLast, hnone], hrt⟩
      · obtain ⟨pv, hl, hrt2⟩ := ih hdist.2 hm hff
        exact ⟨pv, by simp only [lookupLast, hl], hrt2⟩

theorem agreesDict_of_pointwise {kvs q : PyKVs} {t : String}
    (h : ∀ k v fd, MemEnt kvs k v →
      findField (fieldsOf t) (to_snake k) = some fd →
      ∃ w, lookupLast q k = some w ∧ agreesVal v w fd.ftype = true) :
    agreesDict kvs q t = true := by
  induction kvs using kvsSpineInduction with
  | nil => rfl
  | cons k v tl ih =>
      rw [agreesDict_cons]
      have htl := ih (fun k2 v2 fd hm hff => h k2 v2 fd (Or.inr hm) hff)
      rw [htl]
      cases hf : findField (fieldsOf t) (to_snake k) with
      | none => simp
      | some fd =>
          obtain ⟨w, hw, hag⟩ := h k v fd (Or.inl ⟨rfl, rfl⟩) hf
          simp [hw, hag]

theorem wfEntries_spec {kvs : PyKVs} {F : List FieldDecl}
    (h : wfEntries kvs F = true) :
    ∀ {k : String} {v : PyVal} {fd : FieldDecl},
      MemEnt kvs k v → findField F (to_snake k) = some fd →
      to_lower_camel_case (to_snake k) = k ∧ wfValue v fd.ftype = true := by
  induction kvs using kvsSpineInduction with
  | nil => intro k v fd hm; exact absurd hm id
  | cons k0 v0 tl ih =>
      rw [wfEntries_cons] at h
      simp only [Bool.and_eq_true] at h
      intro k v fd hm hff
      rcases hm with ⟨hk, hv⟩ | hm
      · subst hk; subst hv
        obtain ⟨h1, h2⟩ := h
        rw [hff] at h1
        simpa [Bool.and_eq_true, decide_eq_true_eq] using h1
      · exact ih h.2 hm hff

theorem camelNames_eq (F : List FieldDecl) :
    camelNames F = (fieldNames F).map to_lower_camel_case := by
  simp [camelNames, fieldNames, List.map_map]

theorem fieldsOf_names_nodup (t : String) : (fieldNames (fieldsOf t)).Nodup := by
  unfold fieldsOf
  split <;> decide

theorem fieldsOf_camel_nodup (t : String) : (camelNames (fieldsOf t)).Nodup := by
  unfold fieldsOf
  split <;> decide

mutual

/-- Round trip for a well-formed class payload: `parser` succeeds with
an instance, `unpack` maps that instance back to a dict, and the dict
agrees with the original payload on every matched field; moreover every
declared field with no matching payload key ends up holding the `None`
default inside the instance. -/
theorem roundtrip_payload (p : PyVal) (t : String)
    (h : wfPayload p t = true) :
    ∃ kvs flds q, p = .vdict kvs ∧
      parser p (.cls t) = .ok (.vinst t flds) ∧
      unpack (.vinst t flds) = .ok (.vdict q) ∧
      agreesDict kvs q t = true ∧
      namesOf q = camelNames (fieldsOf t) ∧
      (∀ fd ∈ fieldsOf t, hasKeyFor kvs fd.fname = false →
        lookupLast flds fd.fname = some .vnone) := by
  have hshape : ∃ kvs, p = .vdict kvs := by
    cases p <;> first
      | exact ⟨_, rfl⟩
      | simp [wfPayload] at h
  obtain ⟨kvs, rfl⟩ := hshape
  simp only [wfPayload, Bool.and_eq_true] at h
  obtain ⟨⟨hdist, hent⟩, hreq⟩ := h
  obtain ⟨info, hbi, hrel⟩ := roundtrip_entries kvs (fieldsOf t) hent
  have hcon : ∀ fd ∈ fieldsOf t,
      fd.optional = true ∨ lookupLast info fd.fname ≠ none := by
    intro fd hmem
    rcases requiredPresent_spec hreq fd hmem with hopt | hkey
    · exact Or.inl hopt
    · right
      obtain ⟨k, v, hm, hsk⟩ := hasKeyFor_exists hkey
      obtain ⟨fd2, hff⟩ := findField_of_mem hmem
      rw [← hsk] at hff
      obtain ⟨pv, hl, -⟩ := infoRel_lookup_of_entry hrel hdist hm hff
      have hn2 : fd2.fname = fd.fname := by
        rw [findField_fname hff, hsk]
      rw [hn2] at hl
      simp [hl]
  have hcf : constructFields info (fieldsOf t) =
      .ok (constructSpec info (fieldsOf t)) := constructFields_ok info _ hcon
  set flds := constructSpec info (fieldsOf t) with hflds
  have hparse : parser (.vdict kvs) (.cls t) = .ok (.vinst t flds) := by
    simp [parser, hbi, hcf]
  have hunp_val : ∀ n v, MemEnt flds n v → ∃ w, unpackField v = .ok w := by
    intro n v hm
    rw [hflds] at hm
    obtain ⟨fd, hmem, he, hv⟩ := constructSpec_mem info _ hm
    cases hl : lookupLast info fd.fname with
    | some pv =>
        rw [hl] at hv
        simp only [Option.getD_some] at hv
        subst hv
        obtain ⟨k2, v2, fd2, hm2, hff2, he2, hrt⟩ := infoRel_lookup_some hrel hl
        obtain ⟨w, hw, -⟩ := hrt
        exact ⟨w, hw⟩
    | none =>
        rw [hl] at hv
        simp only [Option.getD_none] at hv
        subst hv
        exact ⟨.vnone, rfl⟩
  obtain ⟨q, hq, hup⟩ := unpackEntries_ok flds hunp_val
  have hunp : unpack (.vinst t flds) = .ok (.vdict q) := by
    simp [unpack, hq]
  have hnamesflds : namesOf flds = fieldNames (fieldsOf t) := by
    rw [hflds]; exact constructSpec_names info _
  have hag : agreesDict kvs q t = true := by
    apply agreesDict_of_pointwise
    intro k v fd hm hff
    obtain ⟨hcanon, hwfv⟩ := wfEntries_spec hent hm hff
    obtain ⟨pv, hl, hrt⟩ := infoRel_lookup_of_entry hrel hdist hm hff
    have hmemF : fd ∈ fieldsOf t := findField_mem hff
    have hfl : lookupLast flds fd.fname = some pv := by
      rw [hflds, constructSpec_lookup info _ hmemF (fieldsOf_names_nodup t), hl]
      rfl
    have hinj : ∀ m ∈ namesOf flds,
        to_lower_camel_case m = to_lower_camel_case fd.fname → m = fd.fname := by
      rw [hnamesflds]
      intro m hm2 hcm
      have hnd : ((fieldNames (fieldsOf t)).map to_lower_camel_case).Nodup := by
        rw [← camelNames_eq]; exact fieldsOf_camel_nodup t
      have hfdmem : fd.fname ∈ fieldNames (fieldsOf t) :=
        List.mem_map_of_mem _ hmemF
      exact List.inj_on_of_nodup_map hnd hm2 hfdmem hcm
    obtain ⟨w, hw, hqk⟩ := unpEnt_lookup_last hup fd.fname hinj pv hfl
    obtain ⟨w2, hw2, hagv⟩ := hrt
    have hww : w2 = w := by
      rw [hw] at hw2
      injection hw2 with he
      exact he.symm
    subst hww
    have hkey : to_lower_camel_case fd.fname = k := by
      rw [findField_fname hff]; exact hcanon
    rw [hkey] at hqk
    exact ⟨w2, hqk, hagv⟩
  have hqnames : namesOf q = camelNames (fieldsOf t) := by
    rw [unpEnt_names hup, hnamesflds, ← camelNames_eq]
  have hdef : ∀ fd ∈ fieldsOf t, hasKeyFor kvs fd.fname = false →
      lookupLast flds fd.fname = some .vnone := by
    intro fd hmem hno
    have hnone := infoRel_lookup_none hrel hno
    rw [hflds, constructSpec_lookup info _ hmem (fieldsOf_names_nodup t), hnone]
    rfl
  exact ⟨kvs, flds, q, rfl, hparse, hunp, hag, hqnames, hdef⟩

/-- Round trip for the entry loop of `parser`: a well-formed entry list
builds successfully and the resulting `class_info` is pointwise
faithful. -/
theorem roundtrip_entries (kvs : PyKVs) (F : List FieldDecl)
    (h : wfEntries kvs F = true) :
    ∃ info, buildInfo kvs F = .ok info ∧ InfoRel F kvs info := by
  cases kvs with
  | nil => exact ⟨.nil, rfl, .nil⟩
  | cons k v tl =>
      rw [wfEntries_cons] at h
      simp only [Bool.and_eq_true] at h
      obtain ⟨h1, h2⟩ := h
      obtain ⟨info, hbi, hrel⟩ := roundtrip_entries tl F h2
      cases hf : findField F (to_snake k) with
      | none =>
          refine ⟨info, ?_, .skip hf hrel⟩
          rw [buildInfo_cons]
          simp only [hf]
          exact hbi
      | some fd =>
          rw [hf] at h1
          simp only [Bool.and_eq_true, decide_eq_true_eq] at h1
          obtain ⟨hcanon, hwfv⟩ := h1
          have hpv : ∃ pv, parseField v fd.ftype = .ok pv ∧
              FieldRT v pv fd.ftype := by
            cases hft : fd.ftype with
            | prim =>
                rw [hft] at hwfv
                simp only [wfValue] at hwfv
                exact ⟨v, rfl, v, isScalarOk_unpackField hwfv,
                  by simp [agreesVal]⟩
            | record s =>
                rw [hft] at hwfv
                simp only [wfValue] at hwfv
                obtain ⟨kv2, flds2, q2, hveq, hp, hu, hag, -, -⟩ :=
                  roundtrip_payload v s hwfv
                refine ⟨.vinst s flds2, ?_, .vdict q2, ?_, ?_⟩
                · simp [parseField, hp]
                · simp [unpackField, hu]
                · subst hveq; simp [agreesVal, hag]
            | listRec s =>
                rw [hft] at hwfv
                cases v
                case vlist xs =>
                  simp only [wfValue] at hwfv
                  obtain ⟨ys, zs, hpi, hui, hagi⟩ := roundtrip_items xs s hwfv
                  refine ⟨.vlist ys, ?_, .vlist zs, ?_, ?_⟩
                  · simp [parseField, parser, hpi]
                  · simp [unpackField, unpack, hui]
                  · simp [agreesVal, hagi]
                all_goals simp [wfValue] at hwfv
          obtain ⟨pv, hpf, hrt⟩ := hpv
          refine ⟨.cons fd.fname pv info, ?_, .keep hf hrt hrel⟩
          rw [buildInfo_cons]
          simp only [hf, hpf, hbi]

/-- Round trip for a well-formed list of record payloads. -/
theorem roundtrip_items (xs : PyItems) (s : String)
    (h : wfItems xs s = true) :
    ∃ ys zs, parserItems xs s = .ok ys ∧ unpackItems ys = .ok zs ∧
      agreesItems xs zs s = true := by
  cases xs with
  | nil => exact ⟨.nil, .nil, rfl, rfl, rfl⟩
  | cons v tl =>
      simp only [wfItems, Bool.and_eq_true] at h
      obtain ⟨h1, h2⟩ := h
      obtain ⟨kv2, flds2, q2, hveq, hp, hu, hag, -, -⟩ := roundtrip_payload v s h1
      obtain ⟨ys, zs, hpi, hui, hagi⟩ := roundtrip_items tl s h2
      refine ⟨.cons (.vinst s flds2) ys, .cons (.vdict q2) zs, ?_, ?_, ?_⟩
      · simp [parserItems, hp, hpi]
      · simp [unpackItems, hu, hui]
      · subst hveq; simp [agreesItems, hag, hagi]

end

/-- Build a `PyKVs` from a Lean list (payload notation helper). -/
def kvsOf : List (String × PyVal) → PyKVs
  | [] => .nil
  | (k, v) :: tl => .cons k v (kvsOf tl)

/-- Build a `PyItems` from a Lean list. -/
def itemsOf : List PyVal → PyItems
  | [] => .nil
  | v :: tl => .cons v (itemsOf tl)

/-- C4 counterexample: a payload whose shape matches `ContractPayment`
and whose keys are exactly the declared (snake_case) field names parses
fine, but `unpack(parse(...))` emits the lowerCamelCase wire spellings,
so the original payload keys are not reproduced. -/
theorem roundtrip_rekeys_snake_payload :
    (parser (.vdict (kvsOf [("on_accepted", .vint 1), ("on_fulfilled", .vint 2)]))
        (.cls "ContractPayment")).bind unpack =
      .ok (.vdict (kvsOf [("onAccepted", .vint 1), ("onFulfilled", .vint 2)])) ∧
    lookupLast (kvsOf [("onAccepted", .vint 1), ("onFulfilled", .vint 2)])
      "on_accepted" = none := by decide

/-- C4 (amended): for every declared record type `t` and every payload
in canonical wire form — a dict whose keys have distinct snake images,
whose keys matched to declared fields are spelled in canonical
lowerCamelCase and carry recursively well-shaped values (scalars or
plain dicts under plain fields, record payloads under record fields,
lists of record payloads under record-list fields), with every required
field matched — `unpack` after `parser` succeeds and reproduces, at
every nesting level, the key and value of each payload entry matched to
a declared field; payload keys matching no declared field are dropped
(the output keys are exactly the declared fields' wire names). -/
theorem unparse_parse_roundtrip (p : PyVal) (t : String)
    (h : wfPayload p t = true) :
    ∃ kvs flds q, p = .vdict kvs ∧
      parser p (.cls t) = .ok (.vinst t flds) ∧
      unpack (.vinst t flds) = .ok (.vdict q) ∧
      agreesDict kvs q t = true ∧
      namesOf q = camelNames (fieldsOf t) := by
  obtain ⟨kvs, flds, q, heq, hparse, hunp, hag, hnames, -⟩ :=
    roundtrip_payload p t h
  exact ⟨kvs, flds, q, heq, hparse, hunp, hag, hnames⟩

/-- A canonical Survey payload (with one extra key) for the round-trip
witness. -/
def surveyPayload : PyVal :=
  .vdict (kvsOf
    [("signature", .vstr "SIG-1"),
     ("symbol", .vstr "X1-A"),
     ("deposits", .vlist (itemsOf
        [.vdict (kvsOf [("symbol", .vstr "IRON_ORE")]),
         .vdict (kvsOf [("symbol", .vstr "GOLD_ORE")])])),
     ("expiration", .vstr "2024-01-01T00:00:00Z"),
     ("size", .vstr "SMALL"),
     ("extraKey", .vstr "ignored")])

/-- Witness for C4 (amended): a concrete Survey payload satisfies the
well-formedness hypothesis and round-trips. -/
theorem unparse_parse_roundtrip_witness :
    wfPayload surveyPayload "Survey" = true ∧
    (∃ kvs flds q, surveyPayload = .vdict kvs ∧
      parser surveyPayload (.cls "Survey") = .ok (.vinst "Survey" flds) ∧
      unpack (.vinst "Survey" flds) = .ok (.vdict q) ∧
      agreesDict kvs q "Survey" = true ∧
      namesOf q = camelNames (fieldsOf "Survey")) :=
  ⟨by decide, unparse_parse_roundtrip surveyPayload "Survey" (by decide)⟩

/-- C9: every well-formed Ship payload with no key for the `cooldown`
field parses successfully, and the resulting Ship instance holds the
explicit `None` default in its cooldown field. -/
theorem ship_without_cooldown_parses (kvs : PyKVs)
    (h : wfPayload (.vdict kvs) "Ship" = true)
    (hno : hasKeyFor kvs "cooldown" = false) :
    ∃ flds, parser (.vdict kvs) (.cls "Ship") = .ok (.vinst "Ship" flds) ∧
      lookupLast flds "cooldown" = some .vnone := by
  obtain ⟨kvs2, flds, q, heq, hparse, -, -, -, hdef⟩ :=
    roundtrip_payload (.vdict kvs) "Ship" h
  have hkk : kvs = kvs2 := by injection heq
  subst hkk
  exact ⟨flds, hparse,
    hdef ⟨"cooldown", .record "Cooldown", true⟩ (by decide) hno⟩

/-- A well-formed Ship payload with no cooldown key: every required
field of Ship (and, recursively, of its nested records) is present in
canonical wire form. -/
def shipKVs : PyKVs :=
  kvsOf
    [("symbol", .vstr "AGENT-1"),
     ("registration", .vdict (kvsOf
        [("name", .vstr "AGENT-1"),
         ("factionSymbol", .vstr "COSMIC"),
         ("role", .vstr "COMMAND")])),
     ("nav", .vdict (kvsOf
        [("systemSymbol", .vstr "X1-B"),
         ("waypointSymbol", .vstr "X1-B-A1"),
         ("route", .vdict (kvsOf
            [("destination", .vdict (kvsOf
                [("symbol", .vstr "X1-B-A1"), ("type", .vstr "PLANET"),
                 ("systemSymbol", .vstr "X1-B"), ("x", .vint 1),
                 ("y", .vint 2)])),
             ("origin", .vdict (kvsOf
                [("symbol", .vstr "X1-B-A2"), ("type", .vstr "MOON"),
                 ("systemSymbol", .vstr "X1-B"), ("x", .vint 3),
                 ("y", .vint 4)])),
             ("departureTime", .vstr "2024-01-01T00:00:00Z"),
             ("arrival", .vstr "2024-01-01T01:00:00Z")])),
         ("status", .vstr "DOCKED"),
         ("flightMode", .vstr "CRUISE")])),
     ("frame", .vdict (kvsOf
        [("symbol", .vstr "FRAME_FRIGATE"), ("name", .vstr "Frigate"),
         ("description", .vstr "A frame"), ("condition", .vint 100),
         ("moduleSlots", .vint 8), ("mountingPoints", .vint 5),
         ("fuelCapacity", .vint 400),
         ("requirements", .vdict (kvsOf [("crew", .vint 1)]))])),
     ("reactor", .vdict (kvsOf
        [("symbol", .vstr "REACTOR_FISSION"), ("name", .vstr "Fission"),
         ("description", .vstr "A reactor"), ("condition", .vint 100),
         ("powerOutput", .vint 31),
         ("requirements", .vdict (kvsOf [("crew", .vint 8)]))])),
     ("engine", .vdict (kvsOf
        [("symbol", .vstr "ENGINE_ION_DRIVE"), ("name", .vstr "Ion Drive"),
         ("description", .vstr "An engine"), ("condition", .vint 100),
         ("speed", .vint 30),
         ("requirements", .vdict (kvsOf [("crew", .vint 3)]))])),
     ("mounts", .vlist (itemsOf
        [.vdict (kvsOf
           [("symbol", .vstr "MOUNT_MINING_LASER"), ("name", .vstr "Laser"),
            ("description", .vstr "A mount"), ("strength", .vint 10),
            ("requirements", .vdict (kvsOf [("crew", .vint 1)]))])]))]

/-- Witness for C9: the concrete cooldown-free Ship payload parses with
the cooldown field set to `None`. -/
theorem ship_without_cooldown_parses_witness :
    wfPayload (.vdict shipKVs) "Ship" = true ∧
    hasKeyFor shipKVs "cooldown" = false ∧
    (∃ flds, parser (.vdict shipKVs) (.cls "Ship") = .ok (.vinst "Ship" flds) ∧
      lookupLast flds "cooldown" = some .vnone) :=
  ⟨by decide, by decide,
   ship_without_cooldown_parses shipKVs (by decide) (by decide)⟩
